import Mathlib

/-!
Shallow embedding of the two command handlers of this repository
(`src/commands/compile.rs` and `src/commands/wast.rs`).

The external collaborators (the engine, the configuration resolver, the
binary sniffer, the text-format parser, the script interpreter, and the
filesystem) are modelled as oracles supplied in an environment record;
the handlers themselves are translated statement by statement.  Every
observable call a handler makes is recorded, in program order, in an
event trace, so that temporal claims ("X happens before Y", "Z never
happens on this path") become statements about the trace.
-/

/-- A filesystem entry is either a directory or a non-directory
("regular file" for our purposes). -/
inductive FsNode
  | dir
  | file
  deriving DecidableEq, Repr

/-- A filesystem path, modelled as its parsed list of normal components
(`std::path::Path` after component normalisation).  An empty list models
a path with no components (such as the empty path or a bare root). -/
structure RvPath where
  components : List String
  deriving DecidableEq, Repr

/-- A minimal filesystem: a partial map from paths to entries.
Paths are modelled as their already-parsed component lists. -/
structure Fs where
  nodes : RvPath → Option FsNode

/-- `Path::file_name()`: the last component, unless the path has no
components or ends in `..` (in which case Rust returns `None`). -/
def RvPath.fileName (p : RvPath) : Option String :=
  match p.components.getLast? with
  | none => none
  | some c => if c = ".." then none else some c

/-- `Path::display()`, simplified to joining components with `/`
(only used to build error-message strings). -/
def RvPath.display (p : RvPath) : String :=
  String.intercalate "/" p.components

/-- Index of the last `.` in a character list, if any. -/
def lastDotPos : List Char → Option Nat
  | [] => none
  | c :: rest =>
    match lastDotPos rest with
    | some i => some (i + 1)
    | none => if c = '.' then some 0 else none

/-- `Path::file_stem()` on a single file-name component, following
`std::path`: split at the last `.`; no split when there is no dot, when
the only dot starts the name (dot-files), or for the literal `..`. -/
def rustFileStem (name : String) : String :=
  if name = ".." then name
  else
    match lastDotPos name.toList with
    | none => name
    | some 0 => name
    | some i => String.mk (name.toList.take i)

/-- `Path::extension()` on a single file-name component, following
`std::path`. -/
def rustExtension (name : String) : Option String :=
  if name = ".." then none
  else
    match lastDotPos name.toList with
    | none => none
    | some 0 => none
    | some i => some (String.mk (name.toList.drop (i + 1)))

/-- `PathBuf::set_extension(ext)` applied to a single file-name
component: truncate to the stem and, for a non-empty `ext`, append
`.ext`. -/
def rustSetExtension (name ext : String) : String :=
  if ext = "" then rustFileStem name
  else rustFileStem name ++ "." ++ ext

/-- Error taxonomy of the two commands, mirroring the `anyhow` usage in
the source: bare errors produced by `bail!` or by collaborators, and
`with_context` wrapping. -/
inductive CliError
  | configError (msg : String)
  | invalidArgument (msg : String)
  | ioError (msg : String)
  | inputError (msg : String)
  | wrapped (ctx : String) (inner : CliError)
  deriving DecidableEq, Repr

/-- The engine configuration object.  Only the field this core mutates
(`config.emit_clif(&path)`) is modelled; everything else the resolver
decided is summarised in an opaque tag. -/
structure Config where
  base : Nat
  emitClifDir : Option RvPath
  deriving DecidableEq, Repr

/-- Observable calls made by a command run, in program order. -/
inductive Event
  | initLogging
  | configResolve (target : Option String)
  | fsCreateDir (p : RvPath)
  | configEmitClif (p : RvPath)
  | engineNew (cfg : Config)
  | fsReadInput (p : RvPath)
  | precompileComponent
  | precompileModule
  | fsWrite (p : RvPath)
  | storeNew
  | spectestRegister
  | runScript (p : RvPath)
  deriving DecidableEq, Repr

/-- `true` exactly on `engineNew` events. -/
def Event.isEngineNew : Event → Bool
  | .engineNew _ => true
  | _ => false

/-- `true` exactly on `storeNew` events. -/
def Event.isStoreNew : Event → Bool
  | .storeNew => true
  | _ => false

/-- Result of a (partial) command run: the events it performed, the
filesystem it left behind, and its value or error. -/
structure StageOut (α : Type) where
  trace : List Event
  fs : Fs
  result : Except CliError α

/-- Replace the entry at one path. -/
def Fs.setNode (fs : Fs) (p : RvPath) (n : FsNode) : Fs :=
  ⟨fun q => if q = p then some n else fs.nodes q⟩

/-- The parsed `compile` command (`CompileCommand` in
`src/commands/compile.rs`): the common flags are folded into the
environment's `config` oracle, and the four fields this core reads are
kept. -/
structure CompileCommand where
  target : Option String
  output : Option RvPath
  emit_clif : Option RvPath
  module : RvPath

/-- External collaborators of `CompileCommand::execute`, as result
oracles.  `watFeature` selects between the `wat` and non-`wat` builds
(they differ only in the context string attached to a read failure);
`readInput` returns the bytes of the input after the optional
text-to-binary conversion; `createDir` and `writeFile` return `some e`
exactly when the filesystem call fails. -/
structure CompileEnv where
  watFeature : Bool
  initLogging : Except CliError Unit
  config : Option String → Except CliError Config
  createDir : RvPath → Option CliError
  engineNew : Config → Except CliError Unit
  readInput : RvPath → Except CliError (List Nat)
  isComponent : List Nat → Bool
  precompileComponent : List Nat → Except CliError (List Nat)
  precompileModule : List Nat → Except CliError (List Nat)
  writeFile : RvPath → List Nat → Option CliError

/-- The `--emit-clif` block of `CompileCommand::execute`
(compile.rs lines 66–79): create the directory when nothing exists at
the path, fail when what is there is not a directory, otherwise record
the path into the configuration. -/
def emitClifStage (p : RvPath) (env : CompileEnv) (fs : Fs) (cfg : Config) :
    StageOut Config :=
  match fs.nodes p with
  | none =>
    match env.createDir p with
    | some e => ⟨[.fsCreateDir p], fs, .error e⟩
    | none =>
      ⟨[.fsCreateDir p, .configEmitClif p], fs.setNode p .dir,
        .ok { cfg with emitClifDir := some p }⟩
  | some .dir => ⟨[.configEmitClif p], fs, .ok { cfg with emitClifDir := some p }⟩
  | some .file =>
    ⟨[], fs,
      .error (.invalidArgument
        ("the path passed for '--emit-clif' (" ++ p.display ++
          ") must be a directory"))⟩

/-- `if let Some(path) = self.emit_clif { ... }`: run the emit-clif
block only when a path was supplied. -/
def emitClifOpt (o : Option RvPath) (env : CompileEnv) (fs : Fs) (cfg : Config) :
    StageOut Config :=
  match o with
  | none => ⟨[], fs, .ok cfg⟩
  | some p => emitClifStage p env fs cfg

/-- The context string attached to an input-read failure: the `wat`
build uses a fixed string, the non-`wat` build includes the module
path. -/
def readCtx (env : CompileEnv) (cmd : CompileCommand) : String :=
  if env.watFeature then "failed to read input file"
  else "failed to read input file: " ++ cmd.module.display

/-- Output-path derivation (compile.rs lines 96–100): an explicit
`-o` path is used verbatim; otherwise the input's file-name component
with its extension set to `cwasm`, as a bare one-component path. -/
def outputPath (cmd : CompileCommand) (name : String) : RvPath :=
  match cmd.output with
  | some o => o
  | none => ⟨[rustSetExtension name "cwasm"]⟩

/-- The precompilation dispatch (compile.rs lines 102–106): the binary
sniff of the input bytes picks the component or the module entry
point. -/
def precompileStep (env : CompileEnv) (input : List Nat) :
    Event × Except CliError (List Nat) :=
  if env.isComponent input then
    (.precompileComponent, env.precompileComponent input)
  else
    (.precompileModule, env.precompileModule input)

/-- The final write (compile.rs lines 107–108): write the artifact
bytes, wrapping a failure with the output path. -/
def writeStep (env : CompileEnv) (fs : Fs) (out : RvPath) (bytes : List Nat) :
    StageOut Unit :=
  match env.writeFile out bytes with
  | some e =>
    ⟨[.fsWrite out], fs,
      .error (.wrapped ("failed to write output: " ++ out.display) e)⟩
  | none => ⟨[.fsWrite out], fs.setNode out .file, .ok ()⟩

/-- The tail of `CompileCommand::execute` after engine construction
(compile.rs lines 83–110): validate the input path, read the input,
derive the output path, precompile and write. -/
def compileTail (cmd : CompileCommand) (env : CompileEnv) (fs : Fs) :
    StageOut Unit :=
  match cmd.module.fileName with
  | none =>
    ⟨[], fs,
      .error (.invalidArgument
        ("'" ++ cmd.module.display ++ "' is not a valid input module path"))⟩
  | some name =>
    match env.readInput cmd.module with
    | .error e =>
      ⟨[.fsReadInput cmd.module], fs, .error (.wrapped (readCtx env cmd) e)⟩
    | .ok input =>
      match precompileStep env input with
      | (ev, .error e) => ⟨[.fsReadInput cmd.module, ev], fs, .error e⟩
      | (ev, .ok bytes) =>
        match writeStep env fs (outputPath cmd name) bytes with
        | ⟨tr, fs', r⟩ => ⟨[.fsReadInput cmd.module, ev] ++ tr, fs', r⟩

/-- `CompileCommand::execute` (compile.rs lines 61–111), step by step:
logging, configuration resolution, the optional emit-clif block, engine
construction, then `compileTail`. -/
def CompileCommand.execute (cmd : CompileCommand) (env : CompileEnv) (fs : Fs) :
    StageOut Unit :=
  match env.initLogging with
  | .error e => ⟨[.initLogging], fs, .error e⟩
  | .ok _ =>
    match env.config cmd.target with
    | .error e => ⟨[.initLogging, .configResolve cmd.target], fs, .error e⟩
    | .ok cfg0 =>
      match emitClifOpt cmd.emit_clif env fs cfg0 with
      | ⟨tr1, fs1, .error e⟩ =>
        ⟨[.initLogging, .configResolve cmd.target] ++ tr1, fs1, .error e⟩
      | ⟨tr1, fs1, .ok cfg⟩ =>
        match env.engineNew cfg with
        | .error e =>
          ⟨[.initLogging, .configResolve cmd.target] ++ tr1 ++ [.engineNew cfg],
            fs1, .error e⟩
        | .ok _ =>
          match compileTail cmd env fs1 with
          | ⟨tr2, fs2, r⟩ =>
            ⟨[.initLogging, .configResolve cmd.target] ++ tr1 ++
              [.engineNew cfg] ++ tr2, fs2, r⟩

/-- Outcome of a `wast` run: normal success, a returned error, or a
process abort (a Rust panic, produced here only by the `.expect` on
spectest registration). -/
inductive WOut
  | ok
  | err (e : CliError)
  | fatal (msg : String)
  deriving DecidableEq, Repr

/-- The parsed `wast` command (`WastCommand` in
`src/commands/wast.rs`): the ordered list of script paths.  The common
flags are folded into the environment's `config` oracle; the struct has
no target field, and the source passes `None` as the target. -/
structure WastCommand where
  scripts : List RvPath

/-- External collaborators of `WastCommand::execute`, as oracles over
an abstract interpreter-state type `St` (the store plus everything the
`WastContext` accumulates).  `runFile` consumes the current state and,
on success, returns the state the next script will see. -/
structure WastEnv (St : Type) where
  initLogging : Except CliError Unit
  config : Option String → Except CliError Config
  engineNew : Config → Except CliError Unit
  newStore : St
  registerSpectest : St → Except CliError St
  runFile : St → RvPath → Except CliError St

/-- The script loop of `WastCommand::execute` (wast.rs lines 35–39):
run each script in order against the threaded state; on the first
failure wrap the interpreter error with the failing script's path and
stop. -/
def runScripts {St : Type} (env : WastEnv St) : St → List RvPath →
    List Event × Except CliError Unit
  | _, [] => ([], .ok ())
  | st, s :: rest =>
    match env.runFile st s with
    | .error e =>
      ([.runScript s],
        .error (.wrapped ("failed to run script file '" ++ s.display ++ "'") e))
    | .ok st1 =>
      match runScripts env st1 rest with
      | (tr, r) => (.runScript s :: tr, r)

/-- The state reached after running a list of scripts when every one of
them succeeds (`none` when some script fails along the way). -/
def threadSt {St : Type} (env : WastEnv St) : St → List RvPath → Option St
  | st, [] => some st
  | st, s :: rest =>
    match env.runFile st s with
    | .error _ => none
    | .ok st1 => threadSt env st1 rest

/-- The setup events of a `wast` run, once logging and configuration
have succeeded. -/
def wastSetupTrace (cfg : Config) : List Event :=
  [.initLogging, .configResolve none, .engineNew cfg, .storeNew,
    .spectestRegister]

/-- `WastCommand::execute` (wast.rs lines 24–42): logging, configuration
with no target override, one engine and one store, spectest
registration whose failure aborts (`.expect`), then the script loop
over the single threaded state. -/
def WastCommand.execute {St : Type} (cmd : WastCommand) (env : WastEnv St) :
    List Event × WOut :=
  match env.initLogging with
  | .error e => ([.initLogging], .err e)
  | .ok _ =>
    match env.config none with
    | .error e => ([.initLogging, .configResolve none], .err e)
    | .ok cfg =>
      match env.engineNew cfg with
      | .error e => ([.initLogging, .configResolve none, .engineNew cfg], .err e)
      | .ok _ =>
        match env.registerSpectest env.newStore with
        | .error _ =>
          (wastSetupTrace cfg, .fatal "error instantiating \"spectest\"")
        | .ok st1 =>
          match runScripts env st1 cmd.scripts with
          | (tr, .ok _) => (wastSetupTrace cfg ++ tr, .ok)
          | (tr, .error e) => (wastSetupTrace cfg ++ tr, .err e)

/-- Lift the script loop's `Except` result to a `wast` run outcome. -/
def liftWOut : Except CliError Unit → WOut
  | .ok _ => .ok
  | .error e => .err e

/-- Every event the emit-clif block can emit is a directory creation or
a configuration record for the supplied path. -/
theorem emitClifOpt_trace_shape (o : Option RvPath) (env : CompileEnv)
    (fs : Fs) (cfg : Config) :
    ∀ ev ∈ (emitClifOpt o env fs cfg).trace,
      (∃ p, ev = Event.fsCreateDir p) ∨ (∃ p, ev = Event.configEmitClif p) := by
  cases o with
  | none => simp [emitClifOpt]
  | some p =>
    simp only [emitClifOpt, emitClifStage]
    cases h : fs.nodes p with
    | none =>
      cases hc : env.createDir p with
      | some e => simp
      | none => simp
    | some n => cases n <;> simp

/-- Once logging, configuration, the emit-clif block and engine
construction have succeeded, `CompileCommand.execute` is the recorded
prefix followed by `compileTail` on the filesystem the emit-clif block
left behind. -/
theorem execute_reaches_tail (cmd : CompileCommand) (env : CompileEnv)
    (fs : Fs) (cfg0 cfg : Config) (tr1 : List Event) (fs1 : Fs)
    (h0 : env.initLogging = .ok ())
    (h1 : env.config cmd.target = .ok cfg0)
    (h2 : emitClifOpt cmd.emit_clif env fs cfg0 = ⟨tr1, fs1, .ok cfg⟩)
    (h3 : env.engineNew cfg = .ok ()) :
    CompileCommand.execute cmd env fs =
      ⟨[Event.initLogging, Event.configResolve cmd.target] ++ tr1 ++
          [Event.engineNew cfg] ++ (compileTail cmd env fs1).trace,
        (compileTail cmd env fs1).fs, (compileTail cmd env fs1).result⟩ := by
  rcases hct : compileTail cmd env fs1 with ⟨tr2, fs2, r⟩
  simp [CompileCommand.execute, h0, h1, h2, h3, hct]

/-- The sniff routes a component input to the component entry point. -/
theorem precompileStep_component (env : CompileEnv) (bs : List Nat)
    (hc : env.isComponent bs = true) :
    precompileStep env bs = (.precompileComponent, env.precompileComponent bs) := by
  simp [precompileStep, hc]

/-- The sniff routes a non-component input to the module entry point. -/
theorem precompileStep_module (env : CompileEnv) (bs : List Nat)
    (hc : env.isComponent bs = false) :
    precompileStep env bs = (.precompileModule, env.precompileModule bs) := by
  simp [precompileStep, hc]

/-- The write step records exactly one event: the output write. -/
theorem writeStep_trace (env : CompileEnv) (fs : Fs) (out : RvPath)
    (bytes : List Nat) : (writeStep env fs out bytes).trace = [.fsWrite out] := by
  unfold writeStep
  cases h : env.writeFile out bytes <;> simp

/-- When the input path is valid, the read succeeds and precompilation
fails, `compileTail` stops with the precompilation error, and no write
event is recorded. -/
theorem compileTail_precompile_error (cmd : CompileCommand) (env : CompileEnv)
    (fs : Fs) (name : String) (bs : List Nat) (e : CliError)
    (h4 : cmd.module.fileName = some name)
    (h5 : env.readInput cmd.module = .ok bs)
    (he : (precompileStep env bs).2 = .error e) :
    compileTail cmd env fs =
      ⟨[Event.fsReadInput cmd.module, (precompileStep env bs).1], fs, .error e⟩ := by
  rcases hp : precompileStep env bs with ⟨ev, r⟩
  rw [hp] at he
  simp only at he
  subst he
  simp [compileTail, h4, h5, hp]

/-- When the input path is valid, the read succeeds and precompilation
succeeds, `compileTail` performs the read, the chosen precompilation and
the write of the derived output path. -/
theorem compileTail_precompile_ok (cmd : CompileCommand) (env : CompileEnv)
    (fs : Fs) (name : String) (bs bytes : List Nat)
    (h4 : cmd.module.fileName = some name)
    (h5 : env.readInput cmd.module = .ok bs)
    (hk : (precompileStep env bs).2 = .ok bytes) :
    compileTail cmd env fs =
      ⟨[Event.fsReadInput cmd.module, (precompileStep env bs).1] ++
          (writeStep env fs (outputPath cmd name) bytes).trace,
        (writeStep env fs (outputPath cmd name) bytes).fs,
        (writeStep env fs (outputPath cmd name) bytes).result⟩ := by
  rcases hp : precompileStep env bs with ⟨ev, r⟩
  rw [hp] at hk
  simp only at hk
  subst hk
  rcases hw : writeStep env fs (outputPath cmd name) bytes with ⟨tw, fw, rw'⟩
  simp [compileTail, h4, h5, hp, hw]

/-- Once logging, configuration, engine construction and spectest
registration have succeeded, `WastCommand.execute` is the setup trace
followed by the script loop started from the registered store state. -/
theorem wast_execute_reaches {St : Type} (cmd : WastCommand) (env : WastEnv St)
    (cfg : Config) (st1 : St)
    (h0 : env.initLogging = .ok ())
    (h1 : env.config none = .ok cfg)
    (h2 : env.engineNew cfg = .ok ())
    (h3 : env.registerSpectest env.newStore = .ok st1) :
    WastCommand.execute cmd env =
      (wastSetupTrace cfg ++ (runScripts env st1 cmd.scripts).1,
        liftWOut (runScripts env st1 cmd.scripts).2) := by
  rcases hr : runScripts env st1 cmd.scripts with ⟨tr, r⟩
  cases r with
  | ok u => simp [WastCommand.execute, h0, h1, h2, h3, hr, liftWOut]
  | error e => simp [WastCommand.execute, h0, h1, h2, h3, hr, liftWOut]

/-- Every event the script loop emits is a script run. -/
theorem runScripts_events {St : Type} (env : WastEnv St) :
    ∀ (l : List RvPath) (st : St), ∀ ev ∈ (runScripts env st l).1,
      ∃ q, ev = Event.runScript q := by
  intro l
  induction l with
  | nil => intro st ev hev; simp [runScripts] at hev
  | cons s rest ih =>
    intro st ev hev
    simp only [runScripts] at hev
    cases hf : env.runFile st s with
    | error e =>
      rw [hf] at hev
      simp at hev
      exact ⟨s, hev⟩
    | ok st1 =>
      rw [hf] at hev
      simp at hev
      rcases hev with h | h
      · exact ⟨s, h⟩
      · exact ih st1 ev h

/-- When every script in the list succeeds along the threaded state, the
script loop runs them all, in order, and returns success. -/
theorem runScripts_all_ok {St : Type} (env : WastEnv St) :
    ∀ (l : List RvPath) (st st2 : St), threadSt env st l = some st2 →
      runScripts env st l = (l.map Event.runScript, .ok ()) := by
  intro l
  induction l with
  | nil => intro st st2 _; simp [runScripts]
  | cons s rest ih =>
    intro st st2 hth
    simp only [threadSt] at hth
    cases hf : env.runFile st s with
    | error e => rw [hf] at hth; simp at hth
    | ok st1 =>
      rw [hf] at hth
      simp only at hth
      simp [runScripts, hf, ih st1 st2 hth]

/-- First-failure semantics of the script loop: when every script of the
prefix succeeds and the next script fails, the loop has run exactly the
prefix and the failing script, and returns the interpreter error wrapped
with the failing script's path. -/
theorem runScripts_append_fail {St : Type} (env : WastEnv St) (s : RvPath)
    (post : List RvPath) (e : CliError) :
    ∀ (pre : List RvPath) (st st' : St), threadSt env st pre = some st' →
      env.runFile st' s = .error e →
      runScripts env st (pre ++ s :: post) =
        ((pre ++ [s]).map Event.runScript,
          .error (.wrapped ("failed to run script file '" ++ s.display ++ "'") e)) := by
  intro pre
  induction pre with
  | nil =>
    intro st st' hth hf
    simp only [threadSt, Option.some.injEq] at hth
    subst hth
    simp [runScripts, hf]
  | cons a rest ih =>
    intro st st' hth hf
    simp only [threadSt] at hth
    cases ha : env.runFile st a with
    | error e' => rw [ha] at hth; simp at hth
    | ok st1 =>
      rw [ha] at hth
      simp only at hth
      have := ih st1 st' hth hf
      simp [runScripts, ha, this]

instance {ε α : Type} [DecidableEq ε] [DecidableEq α] :
    DecidableEq (Except ε α) := fun x y =>
  match x, y with
  | .ok a, .ok b =>
    if h : a = b then .isTrue (by rw [h])
    else .isFalse (by intro hc; cases hc; exact h rfl)
  | .error a, .error b =>
    if h : a = b then .isTrue (by rw [h])
    else .isFalse (by intro hc; cases hc; exact h rfl)
  | .ok _, .error _ => .isFalse (by intro hc; cases hc)
  | .error _, .ok _ => .isFalse (by intro hc; cases hc)

/-- An empty filesystem. -/
def emptyFs : Fs := ⟨fun _ => none⟩

/-- A configuration with no emit-clif directory recorded. -/
def baseCfg : Config := ⟨0, none⟩

/-- A compile environment in which every collaborator succeeds: the
resolver returns `baseCfg`, reads return a fixed byte string sniffed as
a module, and precompilation echoes its input. -/
def allOkEnv : CompileEnv where
  watFeature := true
  initLogging := .ok ()
  config := fun _ => .ok baseCfg
  createDir := fun _ => none
  engineNew := fun _ => .ok ()
  readInput := fun _ => .ok [0, 97, 115, 109]
  isComponent := fun _ => false
  precompileComponent := fun b => .ok b
  precompileModule := fun b => .ok b
  writeFile := fun _ _ => none

/-- A `compile` invocation whose module path has no file-name component
and which also supplies an emit-clif directory. -/
def c1cmd : CompileCommand :=
  ⟨none, none, some ⟨["clifdir"]⟩, ⟨[]⟩⟩

/-- C1, counterexample.  The claim says that on an input module path
with no file-name component the failure happens before any engine
construction and before any directory creation.  On this concrete
invocation the run does fail with `InvalidArgument`, but its trace
contains the engine construction and the emit-clif directory creation:
the source checks `file_name()` only after `Engine::new`
(compile.rs line 83 versus line 81). -/
theorem c1_invalid_path_counterexample :
    (CompileCommand.execute c1cmd allOkEnv emptyFs).result =
      .error (.invalidArgument "'' is not a valid input module path") ∧
    Event.engineNew ⟨0, some ⟨["clifdir"]⟩⟩ ∈
      (CompileCommand.execute c1cmd allOkEnv emptyFs).trace ∧
    Event.fsCreateDir ⟨["clifdir"]⟩ ∈
      (CompileCommand.execute c1cmd allOkEnv emptyFs).trace := by
  refine ⟨?_, ?_, ?_⟩ <;> decide

/-- C1, amended.  On an input module path with no file-name component,
once logging, configuration, the emit-clif block and engine
construction succeed, the command fails with the `InvalidArgument`
error naming the path; the failure happens after engine construction
(the trace contains it) but before any input read and before any
output write. -/
theorem c1_invalid_path_amended (cmd : CompileCommand) (env : CompileEnv)
    (fs : Fs) (cfg0 cfg : Config) (tr1 : List Event) (fs1 : Fs)
    (h0 : env.initLogging = .ok ())
    (h1 : env.config cmd.target = .ok cfg0)
    (h2 : emitClifOpt cmd.emit_clif env fs cfg0 = ⟨tr1, fs1, .ok cfg⟩)
    (h3 : env.engineNew cfg = .ok ())
    (h4 : cmd.module.fileName = none) :
    (CompileCommand.execute cmd env fs).result =
      .error (.invalidArgument
        ("'" ++ cmd.module.display ++ "' is not a valid input module path")) ∧
    Event.engineNew cfg ∈ (CompileCommand.execute cmd env fs).trace ∧
    (∀ q, Event.fsReadInput q ∉ (CompileCommand.execute cmd env fs).trace) ∧
    (∀ q, Event.fsWrite q ∉ (CompileCommand.execute cmd env fs).trace) := by
  have hsh := emitClifOpt_trace_shape cmd.emit_clif env fs cfg0
  rw [h2] at hsh
  simp only at hsh
  have htail : compileTail cmd env fs1 =
      ⟨[], fs1, .error (.invalidArgument
        ("'" ++ cmd.module.display ++ "' is not a valid input module path"))⟩ := by
    simp [compileTail, h4]
  rw [execute_reaches_tail cmd env fs cfg0 cfg tr1 fs1 h0 h1 h2 h3, htail]
  refine ⟨rfl, ?_, ?_, ?_⟩
  · simp
  · intro q hq
    simp at hq
    rcases hsh _ hq with ⟨p, hp⟩ | ⟨p, hp⟩ <;> simp at hp
  · intro q hq
    simp at hq
    rcases hsh _ hq with ⟨p, hp⟩ | ⟨p, hp⟩ <;> simp at hp

/-- A `compile` invocation whose module path ends in `..` (so it has no
file-name component) and supplies no emit-clif directory. -/
def c1wcmd : CompileCommand := ⟨none, none, none, ⟨["a", ".."]⟩⟩

/-- C1, witness for the amended theorem at a concrete invocation. -/
theorem c1_invalid_path_amended_witness :
    (CompileCommand.execute c1wcmd allOkEnv emptyFs).result =
      .error (.invalidArgument "'a/..' is not a valid input module path") ∧
    Event.engineNew baseCfg ∈ (CompileCommand.execute c1wcmd allOkEnv emptyFs).trace ∧
    Event.fsReadInput c1wcmd.module ∉
      (CompileCommand.execute c1wcmd allOkEnv emptyFs).trace :=
  ⟨(c1_invalid_path_amended c1wcmd allOkEnv emptyFs baseCfg baseCfg [] emptyFs
      rfl rfl rfl rfl rfl).1,
   (c1_invalid_path_amended c1wcmd allOkEnv emptyFs baseCfg baseCfg [] emptyFs
      rfl rfl rfl rfl rfl).2.1,
   (c1_invalid_path_amended c1wcmd allOkEnv emptyFs baseCfg baseCfg [] emptyFs
      rfl rfl rfl rfl rfl).2.2.1 c1wcmd.module⟩

/-- Every event of `compileTail` past the read is the chosen
precompilation or the output write, and the chosen precompilation does
occur. -/
theorem compileTail_events (cmd : CompileCommand) (env : CompileEnv) (fs : Fs)
    (name : String) (bs : List Nat)
    (h4 : cmd.module.fileName = some name)
    (h5 : env.readInput cmd.module = .ok bs) :
    (precompileStep env bs).1 ∈ (compileTail cmd env fs).trace ∧
    ∀ ev ∈ (compileTail cmd env fs).trace,
      ev = Event.fsReadInput cmd.module ∨ ev = (precompileStep env bs).1 ∨
        ev = Event.fsWrite (outputPath cmd name) := by
  cases hr : (precompileStep env bs).2 with
  | error e =>
    rw [compileTail_precompile_error cmd env fs name bs e h4 h5 hr]
    simp
  | ok bytes =>
    rw [compileTail_precompile_ok cmd env fs name bs bytes h4 h5 hr,
      writeStep_trace]
    constructor
    · simp
    · intro ev hev
      simp at hev
      tauto

/-- `true` exactly on the two precompilation events. -/
def Event.isPrecompile : Event → Bool
  | .precompileComponent => true
  | .precompileModule => true
  | _ => false

/-- C2.  In a run that reaches the precompilation dispatch, the choice
of engine entry point is decided by the binary sniff of the input bytes
alone: a component input routes to `precompile_component` and never to
`precompile_module`, any other input routes to `precompile_module` and
never to `precompile_component`, and exactly one precompilation call
occurs in the run (compile.rs lines 102–106). -/
theorem c2_precompile_dispatch (cmd : CompileCommand) (env : CompileEnv)
    (fs : Fs) (cfg0 cfg : Config) (tr1 : List Event) (fs1 : Fs)
    (name : String) (bs : List Nat)
    (h0 : env.initLogging = .ok ())
    (h1 : env.config cmd.target = .ok cfg0)
    (h2 : emitClifOpt cmd.emit_clif env fs cfg0 = ⟨tr1, fs1, .ok cfg⟩)
    (h3 : env.engineNew cfg = .ok ())
    (h4 : cmd.module.fileName = some name)
    (h5 : env.readInput cmd.module = .ok bs) :
    (env.isComponent bs = true →
      Event.precompileComponent ∈ (CompileCommand.execute cmd env fs).trace ∧
      Event.precompileModule ∉ (CompileCommand.execute cmd env fs).trace) ∧
    (env.isComponent bs = false →
      Event.precompileModule ∈ (CompileCommand.execute cmd env fs).trace ∧
      Event.precompileComponent ∉ (CompileCommand.execute cmd env fs).trace) ∧
    ((CompileCommand.execute cmd env fs).trace.filter Event.isPrecompile).length = 1 := by
  have hsh := emitClifOpt_trace_shape cmd.emit_clif env fs cfg0
  rw [h2] at hsh
  simp only at hsh
  have hev := compileTail_events cmd env fs1 name bs h4 h5
  have hdisj : (precompileStep env bs).1 = Event.precompileComponent ∨
      (precompileStep env bs).1 = Event.precompileModule := by
    unfold precompileStep
    split <;> simp
  have htr1 : tr1.filter Event.isPrecompile = [] := by
    rw [List.filter_eq_nil_iff]
    intro a ha
    rcases hsh _ ha with ⟨p, rfl⟩ | ⟨p, rfl⟩ <;> simp [Event.isPrecompile]
  have hcount : ((compileTail cmd env fs1).trace.filter Event.isPrecompile).length = 1 := by
    cases hr : (precompileStep env bs).2 with
    | error e =>
      rw [compileTail_precompile_error cmd env fs1 name bs e h4 h5 hr]
      rcases hdisj with h | h <;> rw [h] <;> simp [Event.isPrecompile]
    | ok bytes =>
      rw [compileTail_precompile_ok cmd env fs1 name bs bytes h4 h5 hr,
        writeStep_trace]
      rcases hdisj with h | h <;> rw [h] <;> simp [Event.isPrecompile]
  rw [execute_reaches_tail cmd env fs cfg0 cfg tr1 fs1 h0 h1 h2 h3]
  simp only
  refine ⟨?_, ?_, ?_⟩
  · intro hc
    rw [precompileStep_component env bs hc] at hev
    constructor
    · simp [hev.1]
    · intro hmem
      simp at hmem
      rcases hmem with h | h
      · rcases hsh _ h with ⟨p, hp⟩ | ⟨p, hp⟩ <;> simp at hp
      · rcases hev.2 _ h with h' | h' | h' <;> simp at h'
  · intro hc
    rw [precompileStep_module env bs hc] at hev
    constructor
    · simp [hev.1]
    · intro hmem
      simp at hmem
      rcases hmem with h | h
      · rcases hsh _ h with ⟨p, hp⟩ | ⟨p, hp⟩ <;> simp at hp
      · rcases hev.2 _ h with h' | h' | h' <;> simp at h'
  · simp [List.filter_append, htr1, Event.isPrecompile, hcount]

/-- A `compile` invocation of a plain module file with no explicit
output path. -/
def c2cmd : CompileCommand := ⟨none, none, none, ⟨["d", "foo.wat"]⟩⟩

/-- A compile environment identical to `allOkEnv` except that the sniff
classifies every input as a component. -/
def componentEnv : CompileEnv := { allOkEnv with isComponent := fun _ => true }

/-- C2, witness: a component-classified input reaches the component
entry point and never the module entry point. -/
theorem c2_precompile_dispatch_witness :
    Event.precompileComponent ∈
      (CompileCommand.execute c2cmd componentEnv emptyFs).trace ∧
    Event.precompileModule ∉
      (CompileCommand.execute c2cmd componentEnv emptyFs).trace :=
  (c2_precompile_dispatch c2cmd componentEnv emptyFs baseCfg baseCfg [] emptyFs
    "foo.wat" [0, 97, 115, 109] rfl rfl rfl rfl rfl rfl).1 rfl

/-- Setting the artifact extension on a file name that has no extension
appends `.cwasm` instead of erroring. -/
theorem rustSetExtension_no_extension (nm : String)
    (h : rustExtension nm = none) :
    rustSetExtension nm "cwasm" = nm ++ ".cwasm" := by
  have hstem : rustFileStem nm = nm := by
    unfold rustExtension at h
    unfold rustFileStem
    by_cases hdd : nm = ".."
    · simp [hdd]
    · simp only [hdd, if_false] at h ⊢
      cases hl : lastDotPos nm.toList with
      | none => simp [hl]
      | some i =>
        rw [hl] at h
        cases i with
        | zero => simp
        | succ j => simp at h
  rw [rustSetExtension]
  simp only [if_neg (by decide : ¬("cwasm" : String) = "")]
  rw [hstem]
  apply String.ext
  simp [String.data_append]

/-- C3.  In a run that reaches the output write, the output path is the
input path's file-name component with its extension set to `cwasm`, as
a bare one-component path, when no `-o` was given; an explicit `-o`
path is used verbatim; and extension-setting on an extension-less name
appends `.cwasm` (compile.rs lines 96–100). -/
theorem c3_output_path (cmd : CompileCommand) (env : CompileEnv)
    (fs : Fs) (cfg0 cfg : Config) (tr1 : List Event) (fs1 : Fs)
    (name : String) (bs bytes : List Nat)
    (h0 : env.initLogging = .ok ())
    (h1 : env.config cmd.target = .ok cfg0)
    (h2 : emitClifOpt cmd.emit_clif env fs cfg0 = ⟨tr1, fs1, .ok cfg⟩)
    (h3 : env.engineNew cfg = .ok ())
    (h4 : cmd.module.fileName = some name)
    (h5 : env.readInput cmd.module = .ok bs)
    (hk : (precompileStep env bs).2 = .ok bytes) :
    (cmd.output = none →
      Event.fsWrite ⟨[rustSetExtension name "cwasm"]⟩ ∈
        (CompileCommand.execute cmd env fs).trace) ∧
    (∀ o, cmd.output = some o →
      Event.fsWrite o ∈ (CompileCommand.execute cmd env fs).trace) ∧
    (∀ nm, rustExtension nm = none →
      rustSetExtension nm "cwasm" = nm ++ ".cwasm") := by
  rw [execute_reaches_tail cmd env fs cfg0 cfg tr1 fs1 h0 h1 h2 h3,
    compileTail_precompile_ok cmd env fs1 name bs bytes h4 h5 hk]
  refine ⟨?_, ?_, fun nm h => rustSetExtension_no_extension nm h⟩
  · intro ho
    rw [writeStep_trace]
    simp [outputPath, ho]
  · intro o ho
    rw [writeStep_trace]
    simp [outputPath, ho]

/-- C3, witness: compiling `d/foo.wat` with no `-o` writes
`foo.cwasm` as a bare file name in the working directory. -/
theorem c3_output_path_witness :
    Event.fsWrite ⟨["foo.cwasm"]⟩ ∈
      (CompileCommand.execute c2cmd allOkEnv emptyFs).trace ∧
    rustSetExtension "foo" "cwasm" = "foo" ++ ".cwasm" :=
  ⟨(c3_output_path c2cmd allOkEnv emptyFs baseCfg baseCfg [] emptyFs
      "foo.wat" [0, 97, 115, 109] [0, 97, 115, 109]
      rfl rfl rfl rfl rfl rfl rfl).1 rfl,
   (c3_output_path c2cmd allOkEnv emptyFs baseCfg baseCfg [] emptyFs
      "foo.wat" [0, 97, 115, 109] [0, 97, 115, 109]
      rfl rfl rfl rfl rfl rfl rfl).2.2 "foo" rfl⟩

/-- C4.  Scripts are attempted in the order supplied; on the first
failing script the run stops (no later script is attempted), and the
returned error wraps the interpreter error with context naming the
failing script's path; the command succeeds when every script succeeds
(wast.rs lines 35–39). -/
theorem c4_first_failure (cmd : WastCommand) {St : Type} (env : WastEnv St)
    (cfg : Config) (st1 : St)
    (h0 : env.initLogging = .ok ())
    (h1 : env.config none = .ok cfg)
    (h2 : env.engineNew cfg = .ok ())
    (h3 : env.registerSpectest env.newStore = .ok st1) :
    (∀ pre s post st' e, cmd.scripts = pre ++ s :: post →
      threadSt env st1 pre = some st' → env.runFile st' s = .error e →
      WastCommand.execute cmd env =
        (wastSetupTrace cfg ++ (pre ++ [s]).map Event.runScript,
          .err (.wrapped ("failed to run script file '" ++ s.display ++ "'") e))) ∧
    (∀ st2, threadSt env st1 cmd.scripts = some st2 →
      (WastCommand.execute cmd env).2 = .ok) := by
  constructor
  · intro pre s post st' e hsc hth hf
    rw [wast_execute_reaches cmd env cfg st1 h0 h1 h2 h3, hsc,
      runScripts_append_fail env s post e pre st1 st' hth hf]
    rfl
  · intro st2 hth
    rw [wast_execute_reaches cmd env cfg st1 h0 h1 h2 h3,
      runScripts_all_ok env cmd.scripts st1 st2 hth]
    rfl

/-- The first test-script path of the concrete `wast` runs. -/
def pA : RvPath := ⟨["A.wast"]⟩

/-- The second test-script path of the concrete `wast` runs. -/
def pB : RvPath := ⟨["B.wast"]⟩

/-- The interpreter error of the failing script in the concrete runs. -/
def errB : CliError := .inputError "bad wast directive"

/-- A `wast` environment over state `Nat` in which every script
succeeds except `B.wast`, which fails with `errB`. -/
def wastEnvAB : WastEnv Nat where
  initLogging := .ok ()
  config := fun _ => .ok baseCfg
  engineNew := fun _ => .ok ()
  newStore := 0
  registerSpectest := fun st => .ok (st + 1)
  runFile := fun st s => if s = pB then .error errB else .ok (st + 1)

/-- A `wast` run over the scripts `[A.wast, B.wast]`. -/
def wcmdAB : WastCommand := ⟨[pA, pB]⟩

/-- C4, witness: with `A` succeeding and `B` failing, the run executes
exactly `A` then `B` and returns `B`'s error wrapped with `B`'s path. -/
theorem c4_first_failure_witness :
    WastCommand.execute wcmdAB wastEnvAB =
      (wastSetupTrace baseCfg ++ [Event.runScript pA, Event.runScript pB],
        .err (.wrapped "failed to run script file 'B.wast'" errB)) :=
  (c4_first_failure wcmdAB wastEnvAB baseCfg 1 rfl rfl rfl rfl).1
    [pA] pB [] 2 errB rfl rfl rfl

/-- C5.  With an emit-clif path supplied: an absent entry is created as
a directory (and a creation failure is returned as the command's
error); an existing non-directory entry fails the command with the
`InvalidArgument` message naming the path; otherwise the path is
recorded into the configuration the engine is constructed with, and the
record precedes the engine construction in the trace
(compile.rs lines 66–79). -/
theorem c5_emit_clif (cmd : CompileCommand) (env : CompileEnv) (fs : Fs)
    (p : RvPath) (cfg0 : Config)
    (h0 : env.initLogging = .ok ())
    (h1 : env.config cmd.target = .ok cfg0)
    (hp : cmd.emit_clif = some p) :
    (fs.nodes p = none → env.createDir p = none →
      (emitClifStage p env fs cfg0).fs.nodes p = some FsNode.dir) ∧
    (∀ e, fs.nodes p = none → env.createDir p = some e →
      (CompileCommand.execute cmd env fs).result = .error e) ∧
    (fs.nodes p = some FsNode.file →
      (CompileCommand.execute cmd env fs).result =
        .error (.invalidArgument
          ("the path passed for '--emit-clif' (" ++ p.display ++
            ") must be a directory"))) ∧
    ((fs.nodes p = some FsNode.dir ∨
        (fs.nodes p = none ∧ env.createDir p = none)) →
      ∃ tr, (CompileCommand.execute cmd env fs).trace =
        [Event.initLogging, Event.configResolve cmd.target] ++
          (emitClifStage p env fs cfg0).trace ++
          [Event.engineNew { cfg0 with emitClifDir := some p }] ++ tr ∧
        Event.configEmitClif p ∈ (emitClifStage p env fs cfg0).trace) := by
  refine ⟨?_, ?_, ?_, ?_⟩
  · intro hn hc
    simp [emitClifStage, hn, hc, Fs.setNode]
  · intro e hn hc
    simp [CompileCommand.execute, h0, h1, hp, emitClifOpt, emitClifStage, hn, hc]
  · intro hf
    simp [CompileCommand.execute, h0, h1, hp, emitClifOpt, emitClifStage, hf]
  · intro hd
    rcases hd with hdir | ⟨hn, hc⟩
    · have hst : emitClifStage p env fs cfg0 =
          ⟨[.configEmitClif p], fs, .ok { cfg0 with emitClifDir := some p }⟩ := by
        simp [emitClifStage, hdir]
      have h2' : emitClifOpt cmd.emit_clif env fs cfg0 =
          ⟨[.configEmitClif p], fs, .ok { cfg0 with emitClifDir := some p }⟩ := by
        simp [emitClifOpt, hp, hst]
      cases hN : env.engineNew { cfg0 with emitClifDir := some p } with
      | error e =>
        refine ⟨[], ?_, ?_⟩
        · simp [CompileCommand.execute, h0, h1, h2', hN, hst]
        · simp [hst]
      | ok u =>
        refine ⟨(compileTail cmd env fs).trace, ?_, ?_⟩
        · rw [execute_reaches_tail cmd env fs cfg0 _ _ _ h0 h1 h2' hN, hst]
        · simp [hst]
    · have hst : emitClifStage p env fs cfg0 =
          ⟨[.fsCreateDir p, .configEmitClif p], fs.setNode p .dir,
            .ok { cfg0 with emitClifDir := some p }⟩ := by
        simp [emitClifStage, hn, hc]
      have h2' : emitClifOpt cmd.emit_clif env fs cfg0 =
          ⟨[.fsCreateDir p, .configEmitClif p], fs.setNode p .dir,
            .ok { cfg0 with emitClifDir := some p }⟩ := by
        simp [emitClifOpt, hp, hst]
      cases hN : env.engineNew { cfg0 with emitClifDir := some p } with
      | error e =>
        refine ⟨[], ?_, ?_⟩
        · simp [CompileCommand.execute, h0, h1, h2', hN, hst]
        · simp [hst]
      | ok u =>
        refine ⟨(compileTail cmd env (fs.setNode p .dir)).trace, ?_, ?_⟩
        · rw [execute_reaches_tail cmd env fs cfg0 _ _ _ h0 h1 h2' hN, hst]
        · simp [hst]

/-- A filesystem holding a regular file at the emit-clif path. -/
def c5fsFile : Fs := ⟨fun q => if q = ⟨["clifdir"]⟩ then some FsNode.file else none⟩

/-- C5, witness: an existing regular file at the emit-clif path fails
the command with the `InvalidArgument` message naming the path. -/
theorem c5_emit_clif_witness :
    (CompileCommand.execute c1cmd allOkEnv c5fsFile).result =
      .error (.invalidArgument
        "the path passed for '--emit-clif' (clifdir) must be a directory") :=
  (c5_emit_clif c1cmd allOkEnv c5fsFile ⟨["clifdir"]⟩ baseCfg rfl rfl rfl).2.2.1 rfl

/-- C6.  When engine construction fails, `CompileCommand::execute`
returns the backend's error unchanged: the `?` operator on
`Engine::new(&config)` (compile.rs line 81) adds no context and does
not reword the diagnostic. -/
theorem c6_engine_error_verbatim (cmd : CompileCommand) (env : CompileEnv)
    (fs : Fs) (cfg0 cfg : Config) (tr1 : List Event) (fs1 : Fs) (e : CliError)
    (h0 : env.initLogging = .ok ())
    (h1 : env.config cmd.target = .ok cfg0)
    (h2 : emitClifOpt cmd.emit_clif env fs cfg0 = ⟨tr1, fs1, .ok cfg⟩)
    (h3 : env.engineNew cfg = .error e) :
    (CompileCommand.execute cmd env fs).result = .error e := by
  simp [CompileCommand.execute, h0, h1, h2, h3]

/-- A compile environment whose engine construction fails with the
backend diagnostic for an AArch64-only flag on an x86_64 target. -/
def lseEnv : CompileEnv :=
  { allOkEnv with
    engineNew := fun _ => .error (.configError "No existing setting named 'has_lse'") }

/-- C6, witness: the returned error message is exactly the backend's
diagnostic. -/
theorem c6_engine_error_verbatim_witness :
    (CompileCommand.execute c2cmd lseEnv emptyFs).result =
      .error (.configError "No existing setting named 'has_lse'") :=
  c6_engine_error_verbatim c2cmd lseEnv emptyFs baseCfg baseCfg [] emptyFs
    (.configError "No existing setting named 'has_lse'") rfl rfl rfl rfl

/-- C7.  A `wast` run constructs exactly one engine and one store,
both before any script runs (the trace is the setup prefix followed by
script-run events only), and the script loop threads the single store
state: the state a successful script produces is the state the next
script receives (wast.rs lines 27–39). -/
theorem c7_single_engine_store (cmd : WastCommand) {St : Type}
    (env : WastEnv St) (cfg : Config) (st1 : St)
    (h0 : env.initLogging = .ok ())
    (h1 : env.config none = .ok cfg)
    (h2 : env.engineNew cfg = .ok ())
    (h3 : env.registerSpectest env.newStore = .ok st1) :
    (WastCommand.execute cmd env).1 =
      wastSetupTrace cfg ++ (runScripts env st1 cmd.scripts).1 ∧
    ((WastCommand.execute cmd env).1.filter Event.isEngineNew).length = 1 ∧
    ((WastCommand.execute cmd env).1.filter Event.isStoreNew).length = 1 ∧
    (∀ ev ∈ (runScripts env st1 cmd.scripts).1, ∃ q, ev = Event.runScript q) ∧
    (∀ (st : St) (a : RvPath) (rest : List RvPath) (stA : St),
      env.runFile st a = .ok stA →
      runScripts env st (a :: rest) =
        (Event.runScript a :: (runScripts env stA rest).1,
          (runScripts env stA rest).2)) := by
  have hre := wast_execute_reaches cmd env cfg st1 h0 h1 h2 h3
  have hevts := runScripts_events env cmd.scripts st1
  have hnone : ∀ f : Event → Bool, (∀ q, f (Event.runScript q) = false) →
      (runScripts env st1 cmd.scripts).1.filter f = [] := by
    intro f hf
    rw [List.filter_eq_nil_iff]
    intro a ha
    rcases hevts a ha with ⟨q, rfl⟩
    simp [hf q]
  refine ⟨by rw [hre], ?_, ?_, hevts, ?_⟩
  · rw [hre, List.filter_append,
      hnone Event.isEngineNew (fun q => rfl)]
    simp [wastSetupTrace, Event.isEngineNew]
  · rw [hre, List.filter_append,
      hnone Event.isStoreNew (fun q => rfl)]
    simp [wastSetupTrace, Event.isStoreNew]
  · intro st a rest stA hfa
    rcases hr : runScripts env stA rest with ⟨tr, r⟩
    simp [runScripts, hfa, hr]

/-- A `wast` environment over state `Nat` in which every script
succeeds. -/
def wastEnvOK : WastEnv Nat :=
  { wastEnvAB with runFile := fun st _ => .ok (st + 1) }

/-- C7, witness: a concrete two-script run has exactly one engine
construction and one store construction in its trace. -/
theorem c7_single_engine_store_witness :
    ((WastCommand.execute wcmdAB wastEnvOK).1.filter Event.isEngineNew).length = 1 ∧
    ((WastCommand.execute wcmdAB wastEnvOK).1.filter Event.isStoreNew).length = 1 :=
  ⟨(c7_single_engine_store wcmdAB wastEnvOK baseCfg 1 rfl rfl rfl rfl).2.1,
   (c7_single_engine_store wcmdAB wastEnvOK baseCfg 1 rfl rfl rfl rfl).2.2.1⟩

/-- C8.  A spectest registration failure aborts the run (the `.expect`
in wast.rs lines 31–33 is a panic, modelled as the `fatal` outcome),
and is not returned as an ordinary error value; when registration
succeeds the fatal outcome is unreachable. -/
theorem c8_spectest_fatal (cmd : WastCommand) {St : Type} (env : WastEnv St)
    (cfg : Config)
    (h0 : env.initLogging = .ok ())
    (h1 : env.config none = .ok cfg)
    (h2 : env.engineNew cfg = .ok ()) :
    (∀ e, env.registerSpectest env.newStore = .error e →
      WastCommand.execute cmd env =
        (wastSetupTrace cfg, .fatal "error instantiating \"spectest\"")) ∧
    (∀ st1, env.registerSpectest env.newStore = .ok st1 →
      ∀ m, (WastCommand.execute cmd env).2 ≠ .fatal m) := by
  constructor
  · intro e he
    simp [WastCommand.execute, h0, h1, h2, he]
  · intro st1 hr m
    rw [wast_execute_reaches cmd env cfg st1 h0 h1 h2 hr]
    cases hrs : (runScripts env st1 cmd.scripts).2 <;> simp [liftWOut, hrs]

/-- A `wast` environment whose spectest registration fails. -/
def wastEnvRegFail : WastEnv Nat :=
  { wastEnvAB with registerSpectest := fun _ => .error (.inputError "missing fixture") }

/-- C8, witness: a failing registration produces the fatal outcome with
the `.expect` message, before any script runs. -/
theorem c8_spectest_fatal_witness :
    WastCommand.execute wcmdAB wastEnvRegFail =
      (wastSetupTrace baseCfg, .fatal "error instantiating \"spectest\"") :=
  (c8_spectest_fatal wcmdAB wastEnvRegFail baseCfg rfl rfl rfl).1
    (.inputError "missing fixture") rfl

/-- `true` exactly on configuration resolutions carrying a target
override. -/
def Event.isTargetOverride : Event → Bool
  | .configResolve (some _) => true
  | _ => false

/-- C9.  A `wast` run never passes a target override to the
configuration resolver: the source calls `self.common.config(None)`
(wast.rs line 27), so no trace of any run, failing or not, contains a
configuration resolution with a present target. -/
theorem c9_no_target_override {St : Type} (cmd : WastCommand)
    (env : WastEnv St) :
    (WastCommand.execute cmd env).1.filter Event.isTargetOverride = [] := by
  unfold WastCommand.execute
  cases h0 : env.initLogging with
  | error e => simp [Event.isTargetOverride]
  | ok u =>
    cases h1 : env.config none with
    | error e => simp [h1, Event.isTargetOverride]
    | ok cfg =>
      cases h2 : env.engineNew cfg with
      | error e => simp [h1, h2, Event.isTargetOverride]
      | ok u2 =>
        cases h3 : env.registerSpectest env.newStore with
        | error e => simp [h1, h2, h3, wastSetupTrace, Event.isTargetOverride]
        | ok st1 =>
          rcases hr : runScripts env st1 cmd.scripts with ⟨tr, r⟩
          have htr : tr.filter Event.isTargetOverride = [] := by
            rw [List.filter_eq_nil_iff]
            intro a ha
            rcases runScripts_events env cmd.scripts st1 a
              (by rw [hr]; exact ha) with ⟨q, rfl⟩
            simp [Event.isTargetOverride]
          have hfin : (wastSetupTrace cfg ++ tr).filter Event.isTargetOverride = [] := by
            rw [List.filter_append, htr]
            simp [wastSetupTrace, Event.isTargetOverride]
          cases r with
          | ok u3 =>
            simp only [h1, h2, h3, hr]
            exact hfin
          | error e3 =>
            simp only [h1, h2, h3, hr]
            exact hfin

/-- The first component of the precompilation dispatch is never a
write event. -/
theorem precompileStep_fst_ne_write (env : CompileEnv) (bs : List Nat)
    (q : RvPath) : (precompileStep env bs).1 ≠ Event.fsWrite q := by
  unfold precompileStep
  split <;> simp

/-- C10.  When the chosen precompilation call fails, the command
returns that error and the trace contains no output write: the `?`
operator on lines 103/105 of compile.rs returns before `fs::write` on
line 107, so a precompilation failure never creates or truncates the
output file. -/
theorem c10_no_write_on_precompile_error (cmd : CompileCommand)
    (env : CompileEnv) (fs : Fs) (cfg0 cfg : Config) (tr1 : List Event)
    (fs1 : Fs) (name : String) (bs : List Nat) (e : CliError)
    (h0 : env.initLogging = .ok ())
    (h1 : env.config cmd.target = .ok cfg0)
    (h2 : emitClifOpt cmd.emit_clif env fs cfg0 = ⟨tr1, fs1, .ok cfg⟩)
    (h3 : env.engineNew cfg = .ok ())
    (h4 : cmd.module.fileName = some name)
    (h5 : env.readInput cmd.module = .ok bs)
    (he : (env.isComponent bs = true ∧ env.precompileComponent bs = .error e) ∨
      (env.isComponent bs = false ∧ env.precompileModule bs = .error e)) :
    (CompileCommand.execute cmd env fs).result = .error e ∧
    ∀ q, Event.fsWrite q ∉ (CompileCommand.execute cmd env fs).trace := by
  have hpe : (precompileStep env bs).2 = .error e := by
    rcases he with ⟨hc, h⟩ | ⟨hc, h⟩
    · rw [precompileStep_component env bs hc]; exact h
    · rw [precompileStep_module env bs hc]; exact h
  have hsh := emitClifOpt_trace_shape cmd.emit_clif env fs cfg0
  rw [h2] at hsh
  simp only at hsh
  rw [execute_reaches_tail cmd env fs cfg0 cfg tr1 fs1 h0 h1 h2 h3,
    compileTail_precompile_error cmd env fs1 name bs e h4 h5 hpe]
  refine ⟨rfl, ?_⟩
  intro q hq
  simp at hq
  rcases hq with h | h
  · rcases hsh _ h with ⟨p, hp⟩ | ⟨p, hp⟩ <;> simp at hp
  · exact precompileStep_fst_ne_write env bs q h.symm

/-- A compile environment whose module precompilation fails. -/
def precompFailEnv : CompileEnv :=
  { allOkEnv with
    precompileModule := fun _ => .error (.configError "compilation failed") }

/-- C10, witness: a failing module precompilation returns the engine's
error and writes no output file. -/
theorem c10_no_write_on_precompile_error_witness :
    (CompileCommand.execute c2cmd precompFailEnv emptyFs).result =
      .error (.configError "compilation failed") ∧
    Event.fsWrite ⟨["foo.cwasm"]⟩ ∉
      (CompileCommand.execute c2cmd precompFailEnv emptyFs).trace :=
  ⟨(c10_no_write_on_precompile_error c2cmd precompFailEnv emptyFs baseCfg
      baseCfg [] emptyFs "foo.wat" [0, 97, 115, 109]
      (.configError "compilation failed") rfl rfl rfl rfl rfl rfl
      (Or.inr ⟨rfl, rfl⟩)).1,
   (c10_no_write_on_precompile_error c2cmd precompFailEnv emptyFs baseCfg
      baseCfg [] emptyFs "foo.wat" [0, 97, 115, 109]
      (.configError "compilation failed") rfl rfl rfl rfl rfl rfl
      (Or.inr ⟨rfl, rfl⟩)).2 ⟨["foo.cwasm"]⟩⟩
